import Mathlib

/-!
Verification development for the BMW diagnostic/control tool.

The definitions below are shallow embeddings of the repository's core
routines:

* `uds_read_by_id` embeds `src/bmw_gui/trigger_finder.py:uds_read_by_id`
  (the trigger-finder UDS 0x22 engine);
* `uds_read_by_identifier` embeds
  `src/bmw.py:UdsTablePage._uds_read_by_identifier` (the table-page UDS
  0x22 engine), with `recvUntil` embedding `UdsTablePage._recv_until`;
* `decode_led` embeds `src/bmw.py:UdsTablePage._decode_led`;
* `normalize_hex_byte` / `tokens_from_boxes` embed the identical pairs of
  helpers in `src/bmw.py` and `src/bmw_gui/can_utils.py`;
* `eventBitKeys` / `idHitsDelta` embed the event-correlation block of
  `src/bmw_gui/trigger_finder.py:TriggerFinderRunner._run`;
* `CanBit.readState` embeds `src/bmw_gui/trigger_finder.py:CanBit.read_state`.

The bus transport is modelled as the finite list of results that the
polling reads deliver, in order: `none` is an empty-queue poll
(`PCAN_ERROR_QRCVEMPTY` / a `recv` timeout slice), `some f` is a received
frame.  A wait loop whose wall-clock timeout expires corresponds to the
loop exhausting the list, so "the list ran out" is the timeout event of
the loop that is consuming the list at that moment.  Machine bytes are
`Nat` with explicit masking where the code masks.
-/

/-- A received CAN frame: arbitration id plus data bytes.  The DLC of the
Python tuple is `data.length`. -/
structure Frame where
  id : Nat
  data : List Nat
deriving DecidableEq

/-- One observable transport action of a UDS exchange: a frame written to
the bus (`PCANBasic.Write` / `bus.send`) or one read poll
(`PCANBasic.Read` / `bus.recv`). -/
inductive Ev where
  | send (arbid : Nat) (data : List Nat)
  | recv (r : Option Frame)
deriving DecidableEq

/-- The request frame `[ea_req, 0x03, 0x22, did_h, did_l, 0, 0, 0]` built
by both engines. -/
def requestFrame (eaReq didH didL : Nat) : List Nat :=
  [eaReq, 0x03, 0x22, didH, didL, 0, 0, 0]

/-- The flow-control frame `[ea_req, 0x30, 0x00, 0x00, 0, 0, 0, 0]` sent
by both engines after a first frame. -/
def fcFrame (eaReq : Nat) : List Nat :=
  [eaReq, 0x30, 0x00, 0x00, 0, 0, 0, 0]

/-- Outcome of `uds_read_by_id`: the returned payload tuple, or the
`TimeoutError("UDS 0x22 Timeout …")` raised when the initial wait loop
expires. -/
inductive UdsOutcome where
  | ok (payload : List Nat)
  | timeout
deriving DecidableEq

/-- Payload length of an outcome (0 for a timeout). -/
def UdsOutcome.payloadLen : UdsOutcome → Nat
  | .ok p => p.length
  | .timeout => 0

/-- Single-frame acceptance test of `uds_read_by_id` (line 119 of
`trigger_finder.py`): `pci == 0x00 and len(data) >= 5 and data[2] == 0x62
and data[3] == did_h and data[4] == did_l`. -/
abbrev sfAccept (didH didL : Nat) (d : List Nat) : Prop :=
  d.getD 1 0 &&& 0xF0 = 0x00 ∧ 5 ≤ d.length ∧ d.getD 2 0 = 0x62 ∧
    d.getD 3 0 = didH ∧ d.getD 4 0 = didL

/-- First-frame acceptance test of `uds_read_by_id` (line 123):
`pci == 0x10 and len(data) >= 6 and data[3] == 0x62 and data[4] == did_h
and data[5] == did_l`. -/
abbrev ffAccept (didH didL : Nat) (d : List Nat) : Prop :=
  d.getD 1 0 &&& 0xF0 = 0x10 ∧ 6 ≤ d.length ∧ d.getD 3 0 = 0x62 ∧
    d.getD 4 0 = didH ∧ d.getD 5 0 = didL

/-- The consecutive-frame collection loop of `uds_read_by_id` (lines
127–136): skip reads that are empty, from another id, shorter than 2
bytes or not led by `ea_rsp`; append `data2[2:]` for a `0x2X` frame and
keep waiting; stop on any other matching frame, or when the wait expires
(list exhausted), returning the collected payload either way. -/
def collectCF (rxId eaRsp : Nat) (payload : List Nat) :
    List (Option Frame) → List Nat × List Ev
  | [] => (payload, [])
  | none :: rest =>
      let (p, evs) := collectCF rxId eaRsp payload rest
      (p, Ev.recv none :: evs)
  | some f :: rest =>
      if f.id ≠ rxId ∨ f.data.length < 2 ∨ f.data.getD 0 0 ≠ eaRsp then
        let (p, evs) := collectCF rxId eaRsp payload rest
        (p, Ev.recv (some f) :: evs)
      else if f.data.getD 1 0 &&& 0xF0 = 0x20 then
        let (p, evs) := collectCF rxId eaRsp (payload ++ f.data.drop 2) rest
        (p, Ev.recv (some f) :: evs)
      else
        (payload, [Ev.recv (some f)])

/-- The response wait loop of `uds_read_by_id` (lines 111–136). -/
def udsLoop (didH didL txId rxId eaReq eaRsp : Nat) :
    List (Option Frame) → UdsOutcome × List Ev
  | [] => (UdsOutcome.timeout, [])
  | none :: rest =>
      let (res, evs) := udsLoop didH didL txId rxId eaReq eaRsp rest
      (res, Ev.recv none :: evs)
  | some f :: rest =>
      if f.id ≠ rxId ∨ f.data.length < 2 then
        let (res, evs) := udsLoop didH didL txId rxId eaReq eaRsp rest
        (res, Ev.recv (some f) :: evs)
      else if f.data.getD 0 0 ≠ eaRsp then
        let (res, evs) := udsLoop didH didL txId rxId eaReq eaRsp rest
        (res, Ev.recv (some f) :: evs)
      else if sfAccept didH didL f.data then
        (UdsOutcome.ok ((f.data.drop 5).take (f.data.getD 1 0 &&& 0x0F)),
          [Ev.recv (some f)])
      else if ffAccept didH didL f.data then
        let (p, evs) := collectCF rxId eaRsp (f.data.drop 6) rest
        (UdsOutcome.ok p,
          Ev.recv (some f) :: Ev.send txId (fcFrame eaReq) :: evs)
      else
        let (res, evs) := udsLoop didH didL txId rxId eaReq eaRsp rest
        (res, Ev.recv (some f) :: evs)

/-- `trigger_finder.py:uds_read_by_id` — sends the 0x22 request, then runs
the wait loop over the transport reads.  Returns the outcome paired with
the full trace of transport events in program order. -/
def uds_read_by_id (did txId rxId eaReq eaRsp : Nat)
    (reads : List (Option Frame)) : UdsOutcome × List Ev :=
  let didH := (did >>> 8) &&& 0xFF
  let didL := did &&& 0xFF
  let (res, evs) := udsLoop didH didL txId rxId eaReq eaRsp reads
  (res, Ev.send txId (requestFrame eaReq didH didL) :: evs)

/-- Pad a received data list to at least 8 bytes with zeros, as
`_recv_until` does (`raw.extend([0] * (8 - len(raw)))`). -/
def padTo8 (d : List Nat) : List Nat :=
  if d.length < 8 then d ++ List.replicate (8 - d.length) 0 else d

/-- `bmw.py:UdsTablePage._recv_until` — consume reads until one with the
wanted arbitration id appears (returning its zero-padded data and the
remaining reads) or the wait expires (list exhausted, returning `none`).
Also returns the recv events it consumed. -/
def recvUntil (rxId : Nat) :
    List (Option Frame) → Option (List Nat) × List Ev × List (Option Frame)
  | [] => (none, [], [])
  | none :: rest =>
      let (res, evs, rem) := recvUntil rxId rest
      (res, Ev.recv none :: evs, rem)
  | some f :: rest =>
      if f.id ≠ rxId then
        let (res, evs, rem) := recvUntil rxId rest
        (res, Ev.recv (some f) :: evs, rem)
      else
        (some (padTo8 f.data), [Ev.recv (some f)], rest)

/-- Outcome of `UdsTablePage._uds_read_by_identifier`: the returned
payload, or one of its four `RuntimeError`s. -/
inductive BmwOutcome where
  | ok (payload : List Nat)
  | errNoValidResponse
  | errNegativeSF
  | errNegativeFF
  | errUnexpectedPci
deriving DecidableEq

/-- Payload length of a table-page outcome (0 for errors). -/
def BmwOutcome.payloadLen : BmwOutcome → Nat
  | .ok p => p.length
  | _ => 0

/-- The consecutive-frame loop of `_uds_read_by_identifier` (lines
1264–1270), with the inner `_recv_until` fused in: skip frames from other
ids; a `_recv_until` timeout (list exhausted) ends the loop returning the
payload; a matching frame that is not `[EA_RSP, 0x2X, …]` breaks; a
consecutive frame appends `cf[2:]`, then breaks if the payload now
exceeds 128 bytes. -/
def bmwCfLoop (rxId eaRsp : Nat) (payload : List Nat) :
    List (Option Frame) → List Nat × List Ev
  | [] => (payload, [])
  | none :: rest =>
      let (p, evs) := bmwCfLoop rxId eaRsp payload rest
      (p, Ev.recv none :: evs)
  | some f :: rest =>
      if f.id ≠ rxId then
        let (p, evs) := bmwCfLoop rxId eaRsp payload rest
        (p, Ev.recv (some f) :: evs)
      else
        let cf := padTo8 f.data
        if cf.getD 0 0 ≠ eaRsp ∨ cf.getD 1 0 &&& 0xF0 ≠ 0x20 then
          (payload, [Ev.recv (some f)])
        else
          let p' := payload ++ cf.drop 2
          if p'.length > 128 then (p', [Ev.recv (some f)])
          else
            let (p, evs) := bmwCfLoop rxId eaRsp p' rest
            (p, Ev.recv (some f) :: evs)

/-- `bmw.py:UdsTablePage._uds_read_by_identifier` — the table-page UDS
0x22 engine.  `eaRsp` is the class constant `EA_RSP = 0xF1`; it is kept
as a parameter so the theorems quantify over it. -/
def uds_read_by_identifier (did txId rxId eaReq eaRsp : Nat)
    (reads : List (Option Frame)) : BmwOutcome × List Ev :=
  let didH := (did >>> 8) &&& 0xFF
  let didL := did &&& 0xFF
  let reqEv := Ev.send txId (requestFrame eaReq didH didL)
  match recvUntil rxId reads with
  | (none, evs, _) => (BmwOutcome.errNoValidResponse, reqEv :: evs)
  | (some first, evs, rem) =>
    if first.getD 0 0 ≠ eaRsp then
      (BmwOutcome.errNoValidResponse, reqEv :: evs)
    else if first.getD 1 0 &&& 0xF0 = 0x00 then
      if first.getD 2 0 ≠ 0x62 ∨ first.getD 3 0 ≠ didH ∨
          first.getD 4 0 ≠ didL then
        (BmwOutcome.errNegativeSF, reqEv :: evs)
      else
        (BmwOutcome.ok ((first.drop 5).take (first.getD 1 0 &&& 0x0F)),
          reqEv :: evs)
    else if first.getD 1 0 &&& 0xF0 = 0x10 then
      if first.getD 3 0 ≠ 0x62 ∨ first.getD 4 0 ≠ didH ∨
          first.getD 5 0 ≠ didL then
        (BmwOutcome.errNegativeFF,
          reqEv :: evs ++ [Ev.send txId (fcFrame eaReq)])
      else
        let (p, cevs) := bmwCfLoop rxId eaRsp (first.drop 6) rem
        (BmwOutcome.ok p,
          reqEv :: evs ++ Ev.send txId (fcFrame eaReq) :: cevs)
    else
      (BmwOutcome.errUnexpectedPci, reqEv :: evs)

example :
    (uds_read_by_id 0xD631 0x6F1 0x643 0x43 0xF1
      [some ⟨0x643, [0xF1, 0x03, 0x62, 0xD6, 0x31, 0xAA, 0xBB, 0xCC]⟩]).1
      = UdsOutcome.ok [0xAA, 0xBB, 0xCC] := by decide

example :
    (uds_read_by_identifier 0xD631 0x6F1 0x643 0x43 0xF1
      [some ⟨0x643, [0xF1, 0x03, 0x62, 0xD6, 0x31, 0xAA, 0xBB, 0xCC]⟩]).1
      = BmwOutcome.ok [0xAA, 0xBB, 0xCC] := by decide

/-! ### Byte codec — `normalize_hex_byte` / `tokens_from_boxes`
(`src/bmw_gui/can_utils.py` lines 66–94 and the identical pair in
`src/bmw.py` lines 187–220). -/

instance {ε α : Type} [DecidableEq ε] [DecidableEq α] :
    DecidableEq (Except ε α) := fun a b =>
  match a, b with
  | Except.error e, Except.error e' =>
      if h : e = e' then isTrue (by rw [h])
      else isFalse (by intro hh; cases hh; exact h rfl)
  | Except.ok x, Except.ok y =>
      if h : x = y then isTrue (by rw [h])
      else isFalse (by intro hh; cases hh; exact h rfl)
  | Except.error _, Except.ok _ => isFalse (by intro hh; cases hh)
  | Except.ok _, Except.error _ => isFalse (by intro hh; cases hh)

/-- The `ValueError`s `normalize_hex_byte` can raise:
`valueErrorByteLen` is the fixed-message
`ValueError("Byte muss 1-2 Hex-Zeichen sein (z. B. A oder 0A).")` of the
length check, which carries no input text; `valueErrorIntLiteral s` is
the failure of `int(s, 16)`, whose message carries the normalized text
`s` (not the original argument). -/
inductive PyError where
  | valueErrorByteLen
  | valueErrorIntLiteral (s : String)
deriving DecidableEq

/-- Python `str.strip()`: drop whitespace from both ends. -/
def pyStrip (l : List Char) : List Char :=
  ((l.dropWhile Char.isWhitespace).reverse.dropWhile Char.isWhitespace).reverse

/-- Python `str.replace("0X", "")`: scan left to right, removing every
(non-overlapping) occurrence of `"0X"`. -/
def removeZeroX : List Char → List Char
  | '0' :: 'X' :: rest => removeZeroX rest
  | c :: rest => c :: removeZeroX rest
  | [] => []

/-- Hex digit as Python `int(-, 16)` accepts it (both cases). -/
def isHexChar (c : Char) : Bool :=
  c.isDigit || (65 ≤ c.toNat && c.toNat ≤ 70) || (97 ≤ c.toNat && c.toNat ≤ 102)

/-- Acceptance of a 2-character string by Python `int(s, 16)`: two hex
digits, or a sign/whitespace character next to a single hex digit
(Python's int parsing strips surrounding whitespace and allows one
leading sign). -/
def pyIntBase16Ok2 (s : String) : Bool :=
  match s.data with
  | [c1, c2] =>
      (isHexChar c1 && isHexChar c2)
      || ((c1 == '+' || c1 == '-' || c1.isWhitespace) && isHexChar c2)
      || (isHexChar c1 && c2.isWhitespace)
  | _ => false

/-- `normalize_hex_byte(val)`: `s = val.strip().upper().replace("0X", "")`
(note: `str.replace` removes EVERY occurrence of `"0X"`, not only a
leading prefix); `""`/`"?"`/`"??"` are the wildcard (`None`); a single
remaining character is zero-padded; a result whose length is not 2 raises
the fixed-message `ValueError`; otherwise `int(s, 16)` validates it.
Lean functions are pure, matching the code's non-mutation of `val`. -/
def normalize_hex_byte (val : String) : Except PyError (Option String) :=
  let s := String.mk (removeZeroX ((pyStrip val.data).map Char.toUpper))
  if s = "" ∨ s = "?" ∨ s = "??" then Except.ok none
  else
    let s1 := if s.length = 1 then "0" ++ s else s
    if s1.length ≠ 2 then Except.error PyError.valueErrorByteLen
    else if pyIntBase16Ok2 s1 then Except.ok (some s1)
    else Except.error (PyError.valueErrorIntLiteral s1)

/-- Accumulating loop of `tokens_from_boxes`: `tokens.append(t)` and
`total *= 256` for each wildcard; a `ValueError` from
`normalize_hex_byte` propagates immediately, discarding the partial
list. -/
def tokensGo : List String → List (Option String) → Nat →
    Except PyError (List (Option String) × Nat)
  | [], toks, total => Except.ok (toks, total)
  | v :: vs, toks, total =>
    match normalize_hex_byte v with
    | Except.error e => Except.error e
    | Except.ok t =>
        tokensGo vs (toks ++ [t]) (if t = none then total * 256 else total)

/-- `tokens_from_boxes(byte_values)` of `can_utils.py` / `bmw.py`. -/
def tokens_from_boxes (vals : List String) :
    Except PyError (List (Option String) × Nat) :=
  tokensGo vals [] 1

/-! ### LED decoder — `UdsTablePage._decode_led`
(`src/bmw.py` lines 1180–1197).  The Python function wraps each value in
`str(...)` for the UI; the embedding keeps the integer values. -/

/-- `_decode_led(payload)`: truncate/zero-pad to exactly 20 entries, then
clamp the first 10 into `[0, 100]` and floor-at-0-and-×10 the next 10. -/
def decode_led (payload : List Int) : List Int × List Int :=
  let padded :=
    if payload.length < 20 then
      payload.take 20 ++ List.replicate (20 - payload.length) 0
    else payload.take 20
  let percRaw := padded.take 10
  let currRaw := (padded.drop 10).take 10
  (percRaw.map (fun v => max 0 (min 100 v)),
   currRaw.map (fun v => max 0 v * 10))

/-- The LED decode as §4.3 of the spec words it: "input payload
truncated/zero-padded to exactly 20 bytes […] First 10 bytes are
percentage values, each clamped to [0,100].  Next 10 bytes are current
readings […] each floored at 0 and multiplied by 10". -/
def ledDecodeSpec (payload : List Int) : List Int × List Int :=
  let padded := (payload ++ List.replicate 20 0).take 20
  ((padded.take 10).map (fun v => max 0 (min 100 v)),
   ((padded.drop 10).take 10).map (fun v => max 0 v * 10))

/-! ### Trigger/correlation engine — event-processing block of
`TriggerFinderRunner._run` (`src/bmw_gui/trigger_finder.py` lines
417–442).  Timestamps are rationals; `PRE_WIN = 0.300`,
`POST_WIN = 0.050`. -/

/-- One ring-buffer entry `(ts, can_id, data)` (the stored DLC is
`data.length`). -/
structure RFrame where
  ts : ℚ
  cid : Nat
  data : List Nat
deriving DecidableEq

/-- `PRE_WIN = 0.300` seconds. -/
def PRE_WIN : ℚ := 3 / 10

/-- `POST_WIN = 0.050` seconds. -/
def POST_WIN : ℚ := 1 / 20

/-- The "before" snapshot map (lines 421–424): for every id, its
last-seen data with `ts_prev < t_start`, later ring entries
overwriting earlier ones. -/
def beforeMap (ring : List RFrame) (tStart : ℚ) : Nat → Option (List Nat) :=
  ring.foldl
    (fun m f =>
      if f.ts < tStart then fun i => if i = f.cid then some f.data else m i
      else m)
    (fun _ => none)

/-- The in-window frames (line 426): `t_start <= ts <= t_end`. -/
def inWin (ring : List RFrame) (tStart tEnd : ℚ) : List RFrame :=
  ring.filter (fun f => decide (tStart ≤ f.ts) && decide (f.ts ≤ tEnd))

/-- Bit-hit keys contributed by one in-window frame against its "before"
snapshot (lines 433–440): XOR byte-wise, skip zero XOR bytes, and emit
`(id, byte, bit)` for every bit with `prev` 0 and `new` 1. -/
def frameBitKeys (cid : Nat) (prev d : List Nat) : List (Nat × Nat × Nat) :=
  ((prev.zip d).map (fun p => p.1 ^^^ p.2)).enum.foldl
    (fun acc ib =>
      if ib.2 = 0 then acc
      else
        acc ++ (List.range 8).filterMap (fun bit =>
          if prev.getD ib.1 0 &&& (1 <<< bit) = 0 ∧
              d.getD ib.1 0 &&& (1 <<< bit) ≠ 0
          then some (cid, ib.1, bit) else none))
    []

/-- All `bit_hits[(id, byte, bit)] += 1` increments of one event, in
program order (lines 428–440): frames without a "before" snapshot of
equal length contribute nothing. -/
def eventBitKeys (ring : List RFrame) (tStart tEnd : ℚ) :
    List (Nat × Nat × Nat) :=
  let before := beforeMap ring tStart
  (inWin ring tStart tEnd).foldl
    (fun acc f =>
      match before f.cid with
      | none => acc
      | some prev =>
          if prev.length = f.data.length then
            acc ++ frameBitKeys f.cid prev f.data
          else acc)
    []

/-- The id-hit increment of one event for id `i` (lines 427–429 and
441–442): `seen_ids` is a set, so every id with at least one in-window
frame is incremented exactly once. -/
def idHitsDelta (ring : List RFrame) (tStart tEnd : ℚ) (i : Nat) : Nat :=
  if i ∈ (inWin ring tStart tEnd).map RFrame.cid then 1 else 0

/-! ### `CanBit` detector (`src/bmw_gui/trigger_finder.py` lines
237–264). -/

/-- Constructor parameters of `CanBit`. -/
structure CanBitCfg where
  cid : Nat
  byteIdx : Nat
  mask : Nat
  value : Nat
deriving DecidableEq

/-- A `CanBit` instance: its configuration plus the internal
`self._last` state. -/
structure CanBitState where
  cfg : CanBitCfg
  last : Nat
deriving DecidableEq

/-- `CanBit.__init__` sets `self._last = 0`. -/
def CanBit.make (cid byteIdx mask value : Nat) : CanBitState :=
  ⟨⟨cid, byteIdx, mask, value⟩, 0⟩

/-- `CanBit.reset` sets `self._last = 0`. -/
def CanBitState.reset (s : CanBitState) : CanBitState :=
  { s with last := 0 }

/-- The frame-acceptance test of `CanBit.read_state` (line 257):
`ok and arbid == self.cid and dlc is not None and data is not None and
self.byte < dlc`. -/
abbrev cbMatch (c : CanBitCfg) (f : Frame) : Prop :=
  f.id = c.cid ∧ c.byteIdx < f.data.length

/-- `data[self.byte] & self.mask` for a matching frame. -/
def cbMasked (c : CanBitCfg) (f : Frame) : Nat :=
  f.data.getD c.byteIdx 0 &&& c.mask

/-- `CanBit.read_state` over the reads of one ~0.2 s poll window: on a
matching frame whose masked byte equals `value & mask`, return
`self._last != target` as the rising edge and store the masked byte;
otherwise store the masked byte and keep polling; return `False` when
the window expires (list exhausted).  The updated `_last` is returned
alongside the result. -/
def CanBit.readState (c : CanBitCfg) :
    Nat → List (Option Frame) → Bool × Nat
  | last, [] => (false, last)
  | last, none :: rest => CanBit.readState c last rest
  | last, some f :: rest =>
      if cbMatch c f then
        let masked := cbMasked c f
        if masked = c.value &&& c.mask then
          (decide (last ≠ c.value &&& c.mask), masked)
        else CanBit.readState c masked rest
      else CanBit.readState c last rest

example : normalize_hex_byte "a" = Except.ok (some "0A") := by decide
example : normalize_hex_byte "F0XF" = Except.ok (some "FF") := by decide
example : normalize_hex_byte " gg " =
    Except.error (PyError.valueErrorIntLiteral "GG") := by decide
example : tokens_from_boxes ["", "", "", "", "", "", "", ""] =
    Except.ok ([none, none, none, none, none, none, none, none],
      256 ^ 8) := by decide
example :
    decode_led (List.replicate 10 0 ++ List.replicate 10 5) =
      (List.replicate 10 0, List.replicate 10 50) := by decide
example :
    (CanBit.readState ⟨0x1A0, 0, 0xFF, 0⟩ 0
      [some ⟨0x1A0, [5]⟩, some ⟨0x1A0, [0]⟩]).1 = true := by decide

/-! ### Helper lemmas about the UDS engines -/

/-- Characterisation of the reads that the wait loop of `uds_read_by_id`
skips with `continue`. -/
def tfSkip (didH didL rxId eaRsp : Nat) : Option Frame → Prop
  | none => True
  | some f =>
      f.id ≠ rxId ∨ f.data.length < 2 ∨ f.data.getD 0 0 ≠ eaRsp ∨
        (¬ sfAccept didH didL f.data ∧ ¬ ffAccept didH didL f.data)

theorem udsLoop_skip_cons (didH didL txId rxId eaReq eaRsp : Nat)
    (r : Option Frame) (rest : List (Option Frame))
    (h : tfSkip didH didL rxId eaRsp r) :
    udsLoop didH didL txId rxId eaReq eaRsp (r :: rest) =
      ((udsLoop didH didL txId rxId eaReq eaRsp rest).1,
        Ev.recv r :: (udsLoop didH didL txId rxId eaReq eaRsp rest).2) := by
  rcases hu : udsLoop didH didL txId rxId eaReq eaRsp rest with ⟨res, evs⟩
  cases r with
  | none => simp [udsLoop, hu]
  | some f =>
      simp only [udsLoop, hu]
      by_cases c1 : f.id ≠ rxId ∨ f.data.length < 2
      · rw [if_pos c1]
      · rw [if_neg c1]
        by_cases c2 : f.data.getD 0 0 ≠ eaRsp
        · rw [if_pos c2]
        · rw [if_neg c2]
          rcases h with h | h | h | ⟨hsf, hff⟩
          · exact absurd (Or.inl h) c1
          · exact absurd (Or.inr h) c1
          · exact absurd h c2
          · rw [if_neg hsf, if_neg hff]

theorem udsLoop_skip_prefix (didH didL txId rxId eaReq eaRsp : Nat)
    (pres rest : List (Option Frame))
    (h : ∀ r ∈ pres, tfSkip didH didL rxId eaRsp r) :
    udsLoop didH didL txId rxId eaReq eaRsp (pres ++ rest) =
      ((udsLoop didH didL txId rxId eaReq eaRsp rest).1,
        pres.map Ev.recv ++ (udsLoop didH didL txId rxId eaReq eaRsp rest).2) := by
  induction pres with
  | nil => simp
  | cons r pres ih =>
      have h1 := h r (List.mem_cons_self r pres)
      have h2 : ∀ x ∈ pres, tfSkip didH didL rxId eaRsp x :=
        fun x hx => h x (List.mem_cons_of_mem r hx)
      rw [List.cons_append,
        udsLoop_skip_cons didH didL txId rxId eaReq eaRsp r (pres ++ rest) h1,
        ih h2]
      simp

theorem udsLoop_sf_head (didH didL txId rxId eaReq eaRsp : Nat)
    (f : Frame) (rest : List (Option Frame))
    (hid : f.id = rxId) (hea : f.data.getD 0 0 = eaRsp)
    (hsf : sfAccept didH didL f.data) :
    udsLoop didH didL txId rxId eaReq eaRsp (some f :: rest) =
      (UdsOutcome.ok ((f.data.drop 5).take (f.data.getD 1 0 &&& 0x0F)),
        [Ev.recv (some f)]) := by
  have hlen : ¬ f.data.length < 2 := by
    have := hsf.2.1
    omega
  have c1 : ¬ (f.id ≠ rxId ∨ f.data.length < 2) := by
    rw [not_or]
    exact ⟨by simp [hid], hlen⟩
  have c2 : ¬ f.data.getD 0 0 ≠ eaRsp := fun hh => hh hea
  simp only [udsLoop]
  rw [if_neg c1, if_neg c2, if_pos hsf]

theorem udsLoop_ff_head (didH didL txId rxId eaReq eaRsp : Nat)
    (f : Frame) (rest : List (Option Frame))
    (hid : f.id = rxId) (hea : f.data.getD 0 0 = eaRsp)
    (hff : ffAccept didH didL f.data) :
    udsLoop didH didL txId rxId eaReq eaRsp (some f :: rest) =
      (UdsOutcome.ok (collectCF rxId eaRsp (f.data.drop 6) rest).1,
        Ev.recv (some f) :: Ev.send txId (fcFrame eaReq) ::
          (collectCF rxId eaRsp (f.data.drop 6) rest).2) := by
  have hsf : ¬ sfAccept didH didL f.data := by
    intro hsf
    have h1 := hsf.1
    have h2 := hff.1
    rw [h1] at h2
    exact absurd h2 (by norm_num)
  have hlen : ¬ f.data.length < 2 := by
    have := hff.2.1
    omega
  have c1 : ¬ (f.id ≠ rxId ∨ f.data.length < 2) := by
    rw [not_or]
    exact ⟨by simp [hid], hlen⟩
  have c2 : ¬ f.data.getD 0 0 ≠ eaRsp := fun hh => hh hea
  rcases hc : collectCF rxId eaRsp (f.data.drop 6) rest with ⟨p, evs⟩
  simp only [udsLoop, hc]
  rw [if_neg c1, if_neg c2, if_neg hsf, if_pos hff]

theorem uds_read_by_id_fst (did txId rxId eaReq eaRsp : Nat)
    (reads : List (Option Frame)) :
    (uds_read_by_id did txId rxId eaReq eaRsp reads).1 =
      (udsLoop ((did >>> 8) &&& 0xFF) (did &&& 0xFF) txId rxId eaReq eaRsp
        reads).1 := by
  rcases hu : udsLoop ((did >>> 8) &&& 0xFF) (did &&& 0xFF) txId rxId eaReq
    eaRsp reads with ⟨res, evs⟩
  simp [uds_read_by_id, hu]

theorem bmw_sf_ok (did txId rxId eaReq eaRsp : Nat)
    (reads : List (Option Frame)) (first : List Nat) (evs : List Ev)
    (rem : List (Option Frame))
    (hrec : recvUntil rxId reads = (some first, evs, rem))
    (hea : first.getD 0 0 = eaRsp)
    (hpci : first.getD 1 0 &&& 0xF0 = 0x00)
    (h62 : first.getD 2 0 = 0x62)
    (h3 : first.getD 3 0 = (did >>> 8) &&& 0xFF)
    (h4 : first.getD 4 0 = did &&& 0xFF) :
    uds_read_by_identifier did txId rxId eaReq eaRsp reads =
      (BmwOutcome.ok ((first.drop 5).take (first.getD 1 0 &&& 0x0F)),
        Ev.send txId (requestFrame eaReq ((did >>> 8) &&& 0xFF) (did &&& 0xFF))
          :: evs) := by
  have c0 : ¬ first.getD 0 0 ≠ eaRsp := fun hh => hh hea
  have cneg : ¬ (first.getD 2 0 ≠ 0x62 ∨ first.getD 3 0 ≠ (did >>> 8) &&& 0xFF ∨
      first.getD 4 0 ≠ did &&& 0xFF) := by
    rw [not_or, not_or]
    exact ⟨fun hh => hh h62, fun hh => hh h3, fun hh => hh h4⟩
  simp only [uds_read_by_identifier, hrec]
  rw [if_neg c0, if_pos hpci, if_neg cneg]

/-- C1: for every UDS read-data-by-identifier exchange, a single-frame
response on `rx_id` led by the extended response address, with high
nibble 0x0 and bytes 2..4 equal to `[0x62, did_high, did_low]`, makes the
engine return exactly the next `L` bytes (bytes 5..5+L, `L` the low
nibble of byte 1) as the payload — proved for the trigger-finder engine
`uds_read_by_id` (with any skipped reads before the response) and for the
table-page engine `uds_read_by_identifier`, plus both engines on the
concrete exchange `[0xF1, 0x03, 0x62, 0xD6, 0x31, 0xAA, 0xBB, 0xCC]` for
DID 0xD631 with EA_RSP = 0xF1, whose payload is `[0xAA, 0xBB, 0xCC]`. -/
theorem C1_uds_single_frame_payload :
    (∀ did txId rxId eaReq eaRsp (pres : List (Option Frame)) (f : Frame)
        (rest : List (Option Frame)),
      (∀ r ∈ pres, tfSkip ((did >>> 8) &&& 0xFF) (did &&& 0xFF) rxId eaRsp r) →
      f.id = rxId → f.data.getD 0 0 = eaRsp →
      sfAccept ((did >>> 8) &&& 0xFF) (did &&& 0xFF) f.data →
      (uds_read_by_id did txId rxId eaReq eaRsp (pres ++ some f :: rest)).1 =
        UdsOutcome.ok ((f.data.drop 5).take (f.data.getD 1 0 &&& 0x0F))) ∧
    (uds_read_by_id 0xD631 0x6F1 0x643 0x43 0xF1
        [some ⟨0x643, [0xF1, 0x03, 0x62, 0xD6, 0x31, 0xAA, 0xBB, 0xCC]⟩]).1 =
      UdsOutcome.ok [0xAA, 0xBB, 0xCC] ∧
    (∀ did txId rxId eaReq eaRsp (reads : List (Option Frame))
        (first : List Nat) (evs : List Ev) (rem : List (Option Frame)),
      recvUntil rxId reads = (some first, evs, rem) →
      first.getD 0 0 = eaRsp →
      first.getD 1 0 &&& 0xF0 = 0x00 →
      first.getD 2 0 = 0x62 →
      first.getD 3 0 = (did >>> 8) &&& 0xFF →
      first.getD 4 0 = did &&& 0xFF →
      (uds_read_by_identifier did txId rxId eaReq eaRsp reads).1 =
        BmwOutcome.ok ((first.drop 5).take (first.getD 1 0 &&& 0x0F))) ∧
    (uds_read_by_identifier 0xD631 0x6F1 0x643 0x43 0xF1
        [some ⟨0x643, [0xF1, 0x03, 0x62, 0xD6, 0x31, 0xAA, 0xBB, 0xCC]⟩]).1 =
      BmwOutcome.ok [0xAA, 0xBB, 0xCC] := by
  refine ⟨?_, by decide, ?_, by decide⟩
  · intro did txId rxId eaReq eaRsp pres f rest hskip hid hea hsf
    rw [uds_read_by_id_fst,
      udsLoop_skip_prefix _ _ _ _ _ _ pres (some f :: rest) hskip,
      udsLoop_sf_head _ _ _ _ _ _ f rest hid hea hsf]
  · intro did txId rxId eaReq eaRsp reads first evs rem hrec hea hpci h62 h3 h4
    rw [bmw_sf_ok did txId rxId eaReq eaRsp reads first evs rem hrec hea hpci
      h62 h3 h4]

/-- Closed witness for C1: both universally quantified parts applied to
the concrete single-frame exchange of the claim. -/
theorem C1_witness :
    (uds_read_by_id 0xD631 0x6F1 0x643 0x43 0xF1
        ([] ++ some ⟨0x643, [0xF1, 0x03, 0x62, 0xD6, 0x31, 0xAA, 0xBB, 0xCC]⟩
          :: [])).1 =
      UdsOutcome.ok
        (([0xF1, 0x03, 0x62, 0xD6, 0x31, 0xAA, 0xBB, 0xCC].drop 5).take
          ([0xF1, 0x03, 0x62, 0xD6, 0x31, 0xAA, 0xBB, 0xCC].getD 1 0 &&& 0x0F))
      ∧
    (uds_read_by_identifier 0xD631 0x6F1 0x643 0x43 0xF1
        [some ⟨0x643, [0xF1, 0x03, 0x62, 0xD6, 0x31, 0xAA, 0xBB, 0xCC]⟩]).1 =
      BmwOutcome.ok
        (([0xF1, 0x03, 0x62, 0xD6, 0x31, 0xAA, 0xBB, 0xCC].drop 5).take
          ([0xF1, 0x03, 0x62, 0xD6, 0x31, 0xAA, 0xBB, 0xCC].getD 1 0 &&& 0x0F)) :=
  ⟨C1_uds_single_frame_payload.1 0xD631 0x6F1 0x643 0x43 0xF1 []
      ⟨0x643, [0xF1, 0x03, 0x62, 0xD6, 0x31, 0xAA, 0xBB, 0xCC]⟩ []
      (fun r hr => absurd hr (List.not_mem_nil r)) rfl rfl (by decide),
    C1_uds_single_frame_payload.2.2.1 0xD631 0x6F1 0x643 0x43 0xF1
      [some ⟨0x643, [0xF1, 0x03, 0x62, 0xD6, 0x31, 0xAA, 0xBB, 0xCC]⟩]
      (padTo8 [0xF1, 0x03, 0x62, 0xD6, 0x31, 0xAA, 0xBB, 0xCC])
      [Ev.recv (some ⟨0x643, [0xF1, 0x03, 0x62, 0xD6, 0x31, 0xAA, 0xBB, 0xCC]⟩)]
      [] (by decide) (by decide) (by decide) (by decide) (by decide) (by decide)⟩

theorem bmw_sf_neg (did txId rxId eaReq eaRsp : Nat)
    (reads : List (Option Frame)) (first : List Nat) (evs : List Ev)
    (rem : List (Option Frame))
    (hrec : recvUntil rxId reads = (some first, evs, rem))
    (hea : first.getD 0 0 = eaRsp)
    (hpci : first.getD 1 0 &&& 0xF0 = 0x00)
    (hneg : first.getD 2 0 ≠ 0x62 ∨ first.getD 3 0 ≠ (did >>> 8) &&& 0xFF ∨
      first.getD 4 0 ≠ did &&& 0xFF) :
    (uds_read_by_identifier did txId rxId eaReq eaRsp reads).1 =
      BmwOutcome.errNegativeSF := by
  have c0 : ¬ first.getD 0 0 ≠ eaRsp := fun hh => hh hea
  simp only [uds_read_by_identifier, hrec]
  rw [if_neg c0, if_pos hpci, if_pos hneg]

/-- C2 counterexample: in the trigger-finder engine `uds_read_by_id`, a
single-frame response on `rx_id` led by `EA_RSP` whose bytes 2..4 are
`[0x7F, 0x22, 0x11]` (a negative response, not `[0x62, did_h, did_l]`)
does NOT make the exchange fail: the engine silently keeps waiting and
returns the payload of a later valid single frame, contradicting the
claim that such an exchange fails with `NegativeResponse`. -/
theorem C2_counterexample :
    (uds_read_by_id 0xD631 0x6F1 0x643 0x43 0xF1
        [some ⟨0x643, [0xF1, 0x03, 0x7F, 0x22, 0x11, 0, 0, 0]⟩,
         some ⟨0x643, [0xF1, 0x03, 0x62, 0xD6, 0x31, 0xAA, 0xBB, 0xCC]⟩]).1 =
      UdsOutcome.ok [0xAA, 0xBB, 0xCC] := by decide

/-- C2 (amended): a mismatched single-frame response (rx_id match,
`EA_RSP` first byte, high nibble 0x0, bytes 2..4 ≠
`[0x62, did_high, did_low]`) makes the table-page engine
`uds_read_by_identifier` fail with `NegativeResponse`; the trigger-finder
engine `uds_read_by_id`, however, skips such a frame and continues
waiting with unchanged outcome (so with no further acceptable frame the
exchange ends in `Timeout`, not `NegativeResponse`). -/
theorem C2_amended_single_frame_mismatch :
    (∀ did txId rxId eaReq eaRsp (reads : List (Option Frame))
        (first : List Nat) (evs : List Ev) (rem : List (Option Frame)),
      recvUntil rxId reads = (some first, evs, rem) →
      first.getD 0 0 = eaRsp →
      first.getD 1 0 &&& 0xF0 = 0x00 →
      (first.getD 2 0 ≠ 0x62 ∨ first.getD 3 0 ≠ (did >>> 8) &&& 0xFF ∨
        first.getD 4 0 ≠ did &&& 0xFF) →
      (uds_read_by_identifier did txId rxId eaReq eaRsp reads).1 =
        BmwOutcome.errNegativeSF) ∧
    (∀ did txId rxId eaReq eaRsp (f : Frame) (rest : List (Option Frame)),
      f.id = rxId → 2 ≤ f.data.length → f.data.getD 0 0 = eaRsp →
      f.data.getD 1 0 &&& 0xF0 = 0x00 →
      ¬ (5 ≤ f.data.length ∧ f.data.getD 2 0 = 0x62 ∧
          f.data.getD 3 0 = (did >>> 8) &&& 0xFF ∧
          f.data.getD 4 0 = did &&& 0xFF) →
      (uds_read_by_id did txId rxId eaReq eaRsp (some f :: rest)).1 =
        (uds_read_by_id did txId rxId eaReq eaRsp rest).1) ∧
    (∀ did txId rxId eaReq eaRsp,
      (uds_read_by_id did txId rxId eaReq eaRsp []).1 = UdsOutcome.timeout) := by
  refine ⟨?_, ?_, ?_⟩
  · intro did txId rxId eaReq eaRsp reads first evs rem hrec hea hpci hneg
    exact bmw_sf_neg did txId rxId eaReq eaRsp reads first evs rem hrec hea
      hpci hneg
  · intro did txId rxId eaReq eaRsp f rest hid hlen hea hpci hneg
    have hskip : tfSkip ((did >>> 8) &&& 0xFF) (did &&& 0xFF) rxId eaRsp
        (some f) := by
      refine Or.inr (Or.inr (Or.inr ⟨?_, ?_⟩))
      · intro hsf
        exact hneg ⟨hsf.2.1, hsf.2.2⟩
      · intro hff
        have h1 := hff.1
        rw [hpci] at h1
        exact absurd h1.symm (by norm_num)
    rw [uds_read_by_id_fst, uds_read_by_id_fst,
      udsLoop_skip_cons _ _ _ _ _ _ (some f) rest hskip]
  · intro did txId rxId eaReq eaRsp
    rw [uds_read_by_id_fst]
    rfl

/-- Closed witness for C2 (amended): the mismatched single frame
`[0xF1, 0x03, 0x7F, 0x22, 0x11, 0, 0, 0]` drives the table-page engine to
`NegativeResponse`, while the trigger-finder engine skips it and, with
nothing further on the bus, times out. -/
theorem C2_witness :
    (uds_read_by_identifier 0xD631 0x6F1 0x643 0x43 0xF1
        [some ⟨0x643, [0xF1, 0x03, 0x7F, 0x22, 0x11, 0, 0, 0]⟩]).1 =
      BmwOutcome.errNegativeSF ∧
    (uds_read_by_id 0xD631 0x6F1 0x643 0x43 0xF1
        [some ⟨0x643, [0xF1, 0x03, 0x7F, 0x22, 0x11, 0, 0, 0]⟩]).1 =
      (uds_read_by_id 0xD631 0x6F1 0x643 0x43 0xF1 []).1 ∧
    (uds_read_by_id 0xD631 0x6F1 0x643 0x43 0xF1 []).1 = UdsOutcome.timeout :=
  ⟨C2_amended_single_frame_mismatch.1 0xD631 0x6F1 0x643 0x43 0xF1
      [some ⟨0x643, [0xF1, 0x03, 0x7F, 0x22, 0x11, 0, 0, 0]⟩]
      (padTo8 [0xF1, 0x03, 0x7F, 0x22, 0x11, 0, 0, 0])
      [Ev.recv (some ⟨0x643, [0xF1, 0x03, 0x7F, 0x22, 0x11, 0, 0, 0]⟩)] []
      (by decide) (by decide) (by decide) (by decide),
    C2_amended_single_frame_mismatch.2.1 0xD631 0x6F1 0x643 0x43 0xF1
      ⟨0x643, [0xF1, 0x03, 0x7F, 0x22, 0x11, 0, 0, 0]⟩ []
      rfl (by decide) rfl (by decide) (by decide),
    C2_amended_single_frame_mismatch.2.2 0xD631 0x6F1 0x643 0x43 0xF1⟩

theorem uds_read_by_id_snd (did txId rxId eaReq eaRsp : Nat)
    (reads : List (Option Frame)) :
    (uds_read_by_id did txId rxId eaReq eaRsp reads).2 =
      Ev.send txId (requestFrame eaReq ((did >>> 8) &&& 0xFF) (did &&& 0xFF)) ::
        (udsLoop ((did >>> 8) &&& 0xFF) (did &&& 0xFF) txId rxId eaReq eaRsp
          reads).2 := by
  rcases hu : udsLoop ((did >>> 8) &&& 0xFF) (did &&& 0xFF) txId rxId eaReq
    eaRsp reads with ⟨res, evs⟩
  simp [uds_read_by_id, hu]

theorem collectCF_evs_recv (rxId eaRsp : Nat) :
    ∀ (reads : List (Option Frame)) (payload : List Nat),
      ∀ e ∈ (collectCF rxId eaRsp payload reads).2, ∃ r, e = Ev.recv r := by
  intro reads
  induction reads with
  | nil =>
      intro payload e he
      exact absurd he (List.not_mem_nil e)
  | cons r rest ih =>
      intro payload e he
      cases r with
      | none =>
          rcases hc : collectCF rxId eaRsp payload rest with ⟨p, evs⟩
          simp only [collectCF, hc] at he
          rcases List.mem_cons.mp he with h | h
          · exact ⟨none, h⟩
          · exact ih payload e (by rw [hc]; exact h)
      | some f =>
          by_cases h1 : f.id ≠ rxId ∨ f.data.length < 2 ∨
              f.data.getD 0 0 ≠ eaRsp
          · rcases hc : collectCF rxId eaRsp payload rest with ⟨p, evs⟩
            simp only [collectCF, if_pos h1, hc] at he
            rcases List.mem_cons.mp he with h | h
            · exact ⟨some f, h⟩
            · exact ih payload e (by rw [hc]; exact h)
          · by_cases h2 : f.data.getD 1 0 &&& 0xF0 = 0x20
            · rcases hc : collectCF rxId eaRsp (payload ++ f.data.drop 2) rest
                with ⟨p, evs⟩
              simp only [collectCF, if_neg h1, if_pos h2, hc] at he
              rcases List.mem_cons.mp he with h | h
              · exact ⟨some f, h⟩
              · exact ih (payload ++ f.data.drop 2) e (by rw [hc]; exact h)
            · simp only [collectCF, if_neg h1, if_neg h2] at he
              rcases List.mem_cons.mp he with h | h
              · exact ⟨some f, h⟩
              · exact absurd h (List.not_mem_nil e)

theorem recvUntil_evs_recv (rxId : Nat) :
    ∀ (reads : List (Option Frame)) (res : Option (List Nat)) (evs : List Ev)
      (rem : List (Option Frame)),
      recvUntil rxId reads = (res, evs, rem) →
      ∀ e ∈ evs, ∃ r, e = Ev.recv r := by
  intro reads
  induction reads with
  | nil =>
      intro res evs rem h e he
      simp only [recvUntil] at h
      injection h with h1 h23
      injection h23 with h2 h3
      subst h2
      exact absurd he (List.not_mem_nil e)
  | cons r rest ih =>
      intro res evs rem h e he
      cases r with
      | none =>
          rcases hr : recvUntil rxId rest with ⟨res', evs', rem'⟩
          simp only [recvUntil, hr] at h
          injection h with h1 h23
          injection h23 with h2 h3
          subst h2
          rcases List.mem_cons.mp he with hh | hh
          · exact ⟨none, hh⟩
          · exact ih res' evs' rem' hr e hh
      | some f =>
          by_cases hc : f.id ≠ rxId
          · rcases hr : recvUntil rxId rest with ⟨res', evs', rem'⟩
            simp only [recvUntil, if_pos hc, hr] at h
            injection h with h1 h23
            injection h23 with h2 h3
            subst h2
            rcases List.mem_cons.mp he with hh | hh
            · exact ⟨some f, hh⟩
            · exact ih res' evs' rem' hr e hh
          · simp only [recvUntil, if_neg hc] at h
            injection h with h1 h23
            injection h23 with h2 h3
            subst h2
            rcases List.mem_cons.mp he with hh | hh
            · exact ⟨some f, hh⟩
            · exact absurd hh (List.not_mem_nil e)

theorem bmwCfLoop_evs_recv (rxId eaRsp : Nat) :
    ∀ (reads : List (Option Frame)) (payload : List Nat),
      ∀ e ∈ (bmwCfLoop rxId eaRsp payload reads).2, ∃ r, e = Ev.recv r := by
  intro reads
  induction reads with
  | nil =>
      intro payload e he
      exact absurd he (List.not_mem_nil e)
  | cons r rest ih =>
      intro payload e he
      cases r with
      | none =>
          rcases hc : bmwCfLoop rxId eaRsp payload rest with ⟨p, evs⟩
          simp only [bmwCfLoop, hc] at he
          rcases List.mem_cons.mp he with h | h
          · exact ⟨none, h⟩
          · exact ih payload e (by rw [hc]; exact h)
      | some f =>
          by_cases h1 : f.id ≠ rxId
          · rcases hc : bmwCfLoop rxId eaRsp payload rest with ⟨p, evs⟩
            simp only [bmwCfLoop, if_pos h1, hc] at he
            rcases List.mem_cons.mp he with h | h
            · exact ⟨some f, h⟩
            · exact ih payload e (by rw [hc]; exact h)
          · by_cases h2 : (padTo8 f.data).getD 0 0 ≠ eaRsp ∨
                (padTo8 f.data).getD 1 0 &&& 0xF0 ≠ 0x20
            · simp only [bmwCfLoop, if_neg h1, if_pos h2] at he
              rcases List.mem_cons.mp he with h | h
              · exact ⟨some f, h⟩
              · exact absurd h (List.not_mem_nil e)
            · by_cases h3 :
                  (payload ++ (padTo8 f.data).drop 2).length > 128
              · simp only [bmwCfLoop, if_neg h1, if_neg h2, if_pos h3] at he
                rcases List.mem_cons.mp he with h | h
                · exact ⟨some f, h⟩
                · exact absurd h (List.not_mem_nil e)
              · rcases hc : bmwCfLoop rxId eaRsp
                    (payload ++ (padTo8 f.data).drop 2) rest with ⟨p, evs⟩
                simp only [bmwCfLoop, if_neg h1, if_neg h2, if_neg h3, hc]
                  at he
                rcases List.mem_cons.mp he with h | h
                · exact ⟨some f, h⟩
                · exact ih (payload ++ (padTo8 f.data).drop 2) e
                    (by rw [hc]; exact h)

theorem count_send_in_recvs (l : List Ev)
    (h : ∀ e ∈ l, ∃ r, e = Ev.recv r) (t : Nat) (d : List Nat) :
    l.count (Ev.send t d) = 0 := by
  rw [List.count_eq_zero]
  intro hmem
  rcases h _ hmem with ⟨r, hr⟩
  exact Ev.noConfusion hr

theorem bmw_ff_ok (did txId rxId eaReq eaRsp : Nat)
    (reads : List (Option Frame)) (first : List Nat) (evs : List Ev)
    (rem : List (Option Frame))
    (hrec : recvUntil rxId reads = (some first, evs, rem))
    (hea : first.getD 0 0 = eaRsp)
    (hpci : first.getD 1 0 &&& 0xF0 = 0x10)
    (h62 : first.getD 3 0 = 0x62)
    (h3 : first.getD 4 0 = (did >>> 8) &&& 0xFF)
    (h4 : first.getD 5 0 = did &&& 0xFF) :
    uds_read_by_identifier did txId rxId eaReq eaRsp reads =
      (BmwOutcome.ok (bmwCfLoop rxId eaRsp (first.drop 6) rem).1,
        Ev.send txId (requestFrame eaReq ((did >>> 8) &&& 0xFF) (did &&& 0xFF))
          :: evs ++ Ev.send txId (fcFrame eaReq) ::
            (bmwCfLoop rxId eaRsp (first.drop 6) rem).2) := by
  have c0 : ¬ first.getD 0 0 ≠ eaRsp := fun hh => hh hea
  have cpci0 : ¬ first.getD 1 0 &&& 0xF0 = 0x00 := by
    rw [hpci]
    norm_num
  have cneg : ¬ (first.getD 3 0 ≠ 0x62 ∨
      first.getD 4 0 ≠ (did >>> 8) &&& 0xFF ∨
      first.getD 5 0 ≠ did &&& 0xFF) := by
    rw [not_or, not_or]
    exact ⟨fun hh => hh h62, fun hh => hh h3, fun hh => hh h4⟩
  rcases hcf : bmwCfLoop rxId eaRsp (first.drop 6) rem with ⟨p, cevs⟩
  simp only [uds_read_by_identifier, hrec, hcf]
  rw [if_neg c0, if_neg cpci0, if_pos hpci, if_neg cneg]

/-- C3: on receiving a matching first frame, both engines send the
flow-control frame `[EA_REQ, 0x30, 0x00, 0x00, 0, 0, 0, 0]` to `tx_id`
exactly once, and every transport event after that send is a read — so
the send happens strictly before any consecutive frame is consumed.
Proved for the trigger-finder engine `uds_read_by_id` (with any skipped
reads before the first frame) and for the table-page engine
`uds_read_by_identifier`. -/
theorem C3_flow_control_before_consecutive :
    (∀ did txId rxId eaReq eaRsp (pres : List (Option Frame)) (f : Frame)
        (rest : List (Option Frame)),
      (∀ r ∈ pres, tfSkip ((did >>> 8) &&& 0xFF) (did &&& 0xFF) rxId eaRsp r) →
      f.id = rxId → f.data.getD 0 0 = eaRsp →
      ffAccept ((did >>> 8) &&& 0xFF) (did &&& 0xFF) f.data →
      ∃ evs₂,
        (uds_read_by_id did txId rxId eaReq eaRsp (pres ++ some f :: rest)).2 =
          Ev.send txId
              (requestFrame eaReq ((did >>> 8) &&& 0xFF) (did &&& 0xFF)) ::
            (pres.map Ev.recv ++ Ev.recv (some f) ::
              Ev.send txId (fcFrame eaReq) :: evs₂) ∧
        (∀ e ∈ evs₂, ∃ r, e = Ev.recv r) ∧
        ((uds_read_by_id did txId rxId eaReq eaRsp
            (pres ++ some f :: rest)).2).count
          (Ev.send txId (fcFrame eaReq)) = 1) ∧
    (∀ did txId rxId eaReq eaRsp (reads : List (Option Frame))
        (first : List Nat) (evs : List Ev) (rem : List (Option Frame)),
      recvUntil rxId reads = (some first, evs, rem) →
      first.getD 0 0 = eaRsp →
      first.getD 1 0 &&& 0xF0 = 0x10 →
      first.getD 3 0 = 0x62 →
      first.getD 4 0 = (did >>> 8) &&& 0xFF →
      first.getD 5 0 = did &&& 0xFF →
      ∃ evs₂,
        (uds_read_by_identifier did txId rxId eaReq eaRsp reads).2 =
          Ev.send txId
              (requestFrame eaReq ((did >>> 8) &&& 0xFF) (did &&& 0xFF)) ::
            evs ++ Ev.send txId (fcFrame eaReq) :: evs₂ ∧
        (∀ e ∈ evs, ∃ r, e = Ev.recv r) ∧
        (∀ e ∈ evs₂, ∃ r, e = Ev.recv r) ∧
        ((uds_read_by_identifier did txId rxId eaReq eaRsp reads).2).count
          (Ev.send txId (fcFrame eaReq)) = 1) := by
  constructor
  · intro did txId rxId eaReq eaRsp pres f rest hskip hid hea hff
    have hreqne : Ev.send txId
        (requestFrame eaReq ((did >>> 8) &&& 0xFF) (did &&& 0xFF)) ≠
        Ev.send txId (fcFrame eaReq) := by
      intro h
      simp only [requestFrame, fcFrame, Ev.send.injEq, List.cons.injEq] at h
      exact absurd h.2.2.1 (by norm_num)
    have hpres : ∀ e ∈ pres.map Ev.recv, ∃ r, e = Ev.recv r := by
      intro e he
      rcases List.mem_map.mp he with ⟨r, _, hr⟩
      exact ⟨r, hr.symm⟩
    have hcfrecv := collectCF_evs_recv rxId eaRsp rest (f.data.drop 6)
    have htr : (uds_read_by_id did txId rxId eaReq eaRsp
        (pres ++ some f :: rest)).2 =
        Ev.send txId
            (requestFrame eaReq ((did >>> 8) &&& 0xFF) (did &&& 0xFF)) ::
          (pres.map Ev.recv ++ Ev.recv (some f) ::
            Ev.send txId (fcFrame eaReq) ::
              (collectCF rxId eaRsp (f.data.drop 6) rest).2) := by
      rw [uds_read_by_id_snd,
        udsLoop_skip_prefix _ _ _ _ _ _ pres (some f :: rest) hskip,
        udsLoop_ff_head _ _ _ _ _ _ f rest hid hea hff]
    refine ⟨(collectCF rxId eaRsp (f.data.drop 6) rest).2, htr, hcfrecv, ?_⟩
    rw [htr, List.count_cons_of_ne (Ne.symm hreqne), List.count_append,
      count_send_in_recvs _ hpres txId (fcFrame eaReq),
      List.count_cons_of_ne (by simp : Ev.send txId (fcFrame eaReq) ≠
        Ev.recv (some f)),
      List.count_cons_self,
      count_send_in_recvs _ hcfrecv txId (fcFrame eaReq)]
  · intro did txId rxId eaReq eaRsp reads first evs rem hrec hea hpci h62 h3 h4
    have hreqne : Ev.send txId
        (requestFrame eaReq ((did >>> 8) &&& 0xFF) (did &&& 0xFF)) ≠
        Ev.send txId (fcFrame eaReq) := by
      intro h
      simp only [requestFrame, fcFrame, Ev.send.injEq, List.cons.injEq] at h
      exact absurd h.2.2.1 (by norm_num)
    have hevs := recvUntil_evs_recv rxId reads (some first) evs rem hrec
    have hcfrecv := bmwCfLoop_evs_recv rxId eaRsp rem (first.drop 6)
    have htr : (uds_read_by_identifier did txId rxId eaReq eaRsp reads).2 =
        Ev.send txId
            (requestFrame eaReq ((did >>> 8) &&& 0xFF) (did &&& 0xFF)) ::
          evs ++ Ev.send txId (fcFrame eaReq) ::
            (bmwCfLoop rxId eaRsp (first.drop 6) rem).2 := by
      rw [bmw_ff_ok did txId rxId eaReq eaRsp reads first evs rem hrec hea
        hpci h62 h3 h4]
    refine ⟨(bmwCfLoop rxId eaRsp (first.drop 6) rem).2, htr, hevs, hcfrecv,
      ?_⟩
    rw [htr, List.count_append, List.count_cons_of_ne (Ne.symm hreqne),
      count_send_in_recvs _ hevs txId (fcFrame eaReq),
      List.count_cons_self,
      count_send_in_recvs _ hcfrecv txId (fcFrame eaReq)]

/-- Closed witness for C3: both parts applied to a concrete multi-frame
exchange (first frame then one consecutive frame) for DID 0xD631. -/
theorem C3_witness :
    (∃ evs₂,
      (uds_read_by_id 0xD631 0x6F1 0x643 0x43 0xF1
          ([] ++ some ⟨0x643, [0xF1, 0x10, 0x0A, 0x62, 0xD6, 0x31, 0xAA, 0xBB]⟩
            :: [some ⟨0x643, [0xF1, 0x21, 1, 2, 3, 4, 5, 6]⟩])).2 =
        Ev.send 0x6F1
            (requestFrame 0x43 ((0xD631 >>> 8) &&& 0xFF) (0xD631 &&& 0xFF)) ::
          (List.map Ev.recv [] ++
            Ev.recv (some ⟨0x643, [0xF1, 0x10, 0x0A, 0x62, 0xD6, 0x31, 0xAA, 0xBB]⟩) ::
              Ev.send 0x6F1 (fcFrame 0x43) :: evs₂) ∧
      (∀ e ∈ evs₂, ∃ r, e = Ev.recv r) ∧
      ((uds_read_by_id 0xD631 0x6F1 0x643 0x43 0xF1
          ([] ++ some ⟨0x643, [0xF1, 0x10, 0x0A, 0x62, 0xD6, 0x31, 0xAA, 0xBB]⟩
            :: [some ⟨0x643, [0xF1, 0x21, 1, 2, 3, 4, 5, 6]⟩])).2).count
        (Ev.send 0x6F1 (fcFrame 0x43)) = 1) ∧
    (∃ evs₂,
      (uds_read_by_identifier 0xD631 0x6F1 0x643 0x43 0xF1
          [some ⟨0x643, [0xF1, 0x10, 0x0A, 0x62, 0xD6, 0x31, 0xAA, 0xBB]⟩]).2 =
        Ev.send 0x6F1
            (requestFrame 0x43 ((0xD631 >>> 8) &&& 0xFF) (0xD631 &&& 0xFF)) ::
          [Ev.recv (some ⟨0x643, [0xF1, 0x10, 0x0A, 0x62, 0xD6, 0x31, 0xAA, 0xBB]⟩)]
            ++ Ev.send 0x6F1 (fcFrame 0x43) :: evs₂ ∧
      (∀ e ∈ [Ev.recv
          (some ⟨0x643, [0xF1, 0x10, 0x0A, 0x62, 0xD6, 0x31, 0xAA, 0xBB]⟩)],
        ∃ r, e = Ev.recv r) ∧
      (∀ e ∈ evs₂, ∃ r, e = Ev.recv r) ∧
      ((uds_read_by_identifier 0xD631 0x6F1 0x643 0x43 0xF1
          [some ⟨0x643, [0xF1, 0x10, 0x0A, 0x62, 0xD6, 0x31, 0xAA, 0xBB]⟩]).2).count
        (Ev.send 0x6F1 (fcFrame 0x43)) = 1) :=
  ⟨C3_flow_control_before_consecutive.1 0xD631 0x6F1 0x643 0x43 0xF1 []
      ⟨0x643, [0xF1, 0x10, 0x0A, 0x62, 0xD6, 0x31, 0xAA, 0xBB]⟩
      [some ⟨0x643, [0xF1, 0x21, 1, 2, 3, 4, 5, 6]⟩]
      (fun r hr => absurd hr (List.not_mem_nil r)) rfl rfl (by decide),
    C3_flow_control_before_consecutive.2 0xD631 0x6F1 0x643 0x43 0xF1
      [some ⟨0x643, [0xF1, 0x10, 0x0A, 0x62, 0xD6, 0x31, 0xAA, 0xBB]⟩]
      (padTo8 [0xF1, 0x10, 0x0A, 0x62, 0xD6, 0x31, 0xAA, 0xBB])
      [Ev.recv (some ⟨0x643, [0xF1, 0x10, 0x0A, 0x62, 0xD6, 0x31, 0xAA, 0xBB]⟩)]
      [] (by decide) (by decide) (by decide) (by decide) (by decide)
      (by decide)⟩

set_option maxRecDepth 4000 in
/-- C4 counterexample: the trigger-finder engine `uds_read_by_id` has no
128-byte safety ceiling: with a first frame and 25 consecutive frames on
the bus it reassembles a 152-byte payload, beyond the claimed bound of
128 plus the bytes of one consecutive frame (at most 134 for 8-byte
frames). -/
theorem C4_counterexample :
    ((uds_read_by_id 0xD631 0x6F1 0x643 0x43 0xF1
        (some ⟨0x643, [0xF1, 0x10, 0x20, 0x62, 0xD6, 0x31, 0xAA, 0xBB]⟩ ::
          List.replicate 25
            (some ⟨0x643, [0xF1, 0x21, 1, 2, 3, 4, 5, 6]⟩))).1).payloadLen =
      152 := by decide

theorem padTo8_length (d : List Nat) (h : d.length ≤ 8) :
    (padTo8 d).length = 8 := by
  unfold padTo8
  by_cases hl : d.length < 8
  · rw [if_pos hl]
    simp
    omega
  · rw [if_neg hl]
    omega

theorem recvUntil_some (rxId : Nat) :
    ∀ (reads : List (Option Frame)) (first : List Nat) (evs : List Ev)
      (rem : List (Option Frame)),
      recvUntil rxId reads = (some first, evs, rem) →
      (∃ f, some f ∈ reads ∧ first = padTo8 f.data) ∧
        (∀ x ∈ rem, x ∈ reads) := by
  intro reads
  induction reads with
  | nil =>
      intro first evs rem h
      simp only [recvUntil] at h
      simp at h
  | cons r rest ih =>
      intro first evs rem h
      cases r with
      | none =>
          rcases hr : recvUntil rxId rest with ⟨res', evs', rem'⟩
          simp only [recvUntil, hr] at h
          injection h with h1 h23
          injection h23 with h2 h3
          rw [h1, h3] at hr
          rcases ih first evs' rem hr with ⟨⟨f, hf, hfirst⟩, hsub⟩
          exact ⟨⟨f, List.mem_cons_of_mem _ hf, hfirst⟩,
            fun x hx => List.mem_cons_of_mem _ (hsub x hx)⟩
      | some f =>
          by_cases hc : f.id ≠ rxId
          · rcases hr : recvUntil rxId rest with ⟨res', evs', rem'⟩
            simp only [recvUntil, if_pos hc, hr] at h
            injection h with h1 h23
            injection h23 with h2 h3
            rw [h1, h3] at hr
            rcases ih first evs' rem hr with ⟨⟨g, hg, hfirst⟩, hsub⟩
            exact ⟨⟨g, List.mem_cons_of_mem _ hg, hfirst⟩,
              fun x hx => List.mem_cons_of_mem _ (hsub x hx)⟩
          · simp only [recvUntil, if_neg hc] at h
            injection h with h1 h23
            injection h23 with h2 h3
            injection h1 with h1
            subst h3
            exact ⟨⟨f, List.mem_cons_self (some f) rest, h1.symm⟩,
              fun x hx => List.mem_cons_of_mem _ hx⟩

theorem bmwCfLoop_length (rxId eaRsp : Nat) :
    ∀ (reads : List (Option Frame)) (payload : List Nat),
      payload.length ≤ 128 →
      (∀ f, some f ∈ reads → f.data.length ≤ 8) →
      (bmwCfLoop rxId eaRsp payload reads).1.length ≤ 134 := by
  intro reads
  induction reads with
  | nil =>
      intro payload hp _
      exact le_trans hp (by norm_num)
  | cons r rest ih =>
      intro payload hp hr
      have hr' : ∀ f, some f ∈ rest → f.data.length ≤ 8 :=
        fun f hf => hr f (List.mem_cons_of_mem _ hf)
      cases r with
      | none =>
          rcases hc : bmwCfLoop rxId eaRsp payload rest with ⟨p, evs⟩
          have hle := ih payload hp hr'
          rw [hc] at hle
          simp only [bmwCfLoop]
          rw [hc]
          exact hle
      | some f =>
          have hf8 : f.data.length ≤ 8 := hr f (List.mem_cons_self (some f) rest)
          have hcf6 : ((padTo8 f.data).drop 2).length = 6 := by
            rw [List.length_drop, padTo8_length f.data hf8]
          by_cases h1 : f.id ≠ rxId
          · rcases hc : bmwCfLoop rxId eaRsp payload rest with ⟨p, evs⟩
            have hle := ih payload hp hr'
            rw [hc] at hle
            simp only [bmwCfLoop]
            rw [if_pos h1, hc]
            exact hle
          · by_cases h2 : (padTo8 f.data).getD 0 0 ≠ eaRsp ∨
                (padTo8 f.data).getD 1 0 &&& 0xF0 ≠ 0x20
            · simp only [bmwCfLoop]
              rw [if_neg h1, if_pos h2]
              exact le_trans hp (by norm_num)
            · by_cases h3 : (payload ++ (padTo8 f.data).drop 2).length > 128
              · simp only [bmwCfLoop]
                rw [if_neg h1, if_neg h2, if_pos h3]
                show (payload ++ (padTo8 f.data).drop 2).length ≤ 134
                rw [List.length_append, hcf6]
                omega
              · rcases hc : bmwCfLoop rxId eaRsp
                    (payload ++ (padTo8 f.data).drop 2) rest with ⟨p, evs⟩
                have hlen : (payload ++ (padTo8 f.data).drop 2).length ≤ 128 := by
                  omega
                have hle := ih (payload ++ (padTo8 f.data).drop 2) hlen hr'
                rw [hc] at hle
                simp only [bmwCfLoop]
                rw [if_neg h1, if_neg h2, if_neg h3, hc]
                exact hle

/-- C4 (amended): the 128-byte safety ceiling exists only in the
table-page engine `uds_read_by_identifier`: there, consecutive-frame
collection breaks once the payload exceeds 128 bytes, so with CAN frames
of at most 8 data bytes any returned payload has at most
128 + 6 = 134 bytes; concretely, a first frame followed by 25 consecutive
frames yields exactly 134 bytes.  The trigger-finder engine
`uds_read_by_id` has no such ceiling (see the counterexample, which
reassembles 152 bytes from the same bus traffic). -/
theorem C4_amended_ceiling_table_page_only :
    (∀ did txId rxId eaReq eaRsp (reads : List (Option Frame)) (p : List Nat),
      (∀ f, some f ∈ reads → f.data.length ≤ 8) →
      (uds_read_by_identifier did txId rxId eaReq eaRsp reads).1 =
        BmwOutcome.ok p →
      p.length ≤ 134) ∧
    ((uds_read_by_identifier 0xD631 0x6F1 0x643 0x43 0xF1
        (some ⟨0x643, [0xF1, 0x10, 0x20, 0x62, 0xD6, 0x31, 0xAA, 0xBB]⟩ ::
          List.replicate 25
            (some ⟨0x643, [0xF1, 0x21, 1, 2, 3, 4, 5, 6]⟩))).1).payloadLen =
      134 := by
  constructor
  · intro did txId rxId eaReq eaRsp reads p hlen hok
    rcases hrec : recvUntil rxId reads with ⟨ores, evs, rem⟩
    simp only [uds_read_by_identifier, hrec] at hok
    split at hok
    · simp at hok
    · rename_i first' evs' rem' heq
      injection heq with heq1 heq23
      injection heq23 with heq2 heq3
      rw [heq1, heq2, heq3] at hrec
      rcases recvUntil_some rxId reads first' evs' rem' hrec with
        ⟨⟨f, hf, hfirst⟩, hrem⟩
      have h8 : first'.length = 8 := by
        rw [hfirst]
        exact padTo8_length f.data (hlen f hf)
      split at hok
      · simp at hok
      · split at hok
        · split at hok
          · simp at hok
          · simp only [] at hok
            injection hok with hok
            rw [← hok]
            have h1 := List.length_take_le' (first'.getD 1 0 &&& 0x0F)
              (first'.drop 5)
            have hd : (first'.drop 5).length = 3 := by
              rw [List.length_drop, h8]
            omega
        · split at hok
          · split at hok
            · simp at hok
            · simp only [] at hok
              injection hok with hok
              rw [← hok]
              have hinit : (first'.drop 6).length ≤ 128 := by
                rw [List.length_drop, h8]
                norm_num
              have hrem8 : ∀ g, some g ∈ rem' → g.data.length ≤ 8 :=
                fun g hg => hlen g (hrem (some g) hg)
              exact bmwCfLoop_length rxId eaRsp rem' (first'.drop 6)
                hinit hrem8
          · simp at hok
  · decide

/-- Closed witness for C4 (amended): the bound applied to the concrete
25-consecutive-frame bus traffic, whose reassembled payload has exactly
134 bytes. -/
theorem C4_witness :
    ([0xAA, 0xBB] ++
      (List.replicate 22 ([1, 2, 3, 4, 5, 6] : List Nat)).flatten).length ≤
      134 :=
  C4_amended_ceiling_table_page_only.1 0xD631 0x6F1 0x643 0x43 0xF1
    (some ⟨0x643, [0xF1, 0x10, 0x20, 0x62, 0xD6, 0x31, 0xAA, 0xBB]⟩ ::
      List.replicate 25 (some ⟨0x643, [0xF1, 0x21, 1, 2, 3, 4, 5, 6]⟩))
    ([0xAA, 0xBB] ++ (List.replicate 22 ([1, 2, 3, 4, 5, 6] : List Nat)).flatten)
    (by
      intro f hf
      rcases List.mem_cons.mp hf with h | h
      · injection h with h
        subst h
        decide
      · have h2 := List.eq_of_mem_replicate h
        injection h2 with h2
        subst h2
        decide)
    (by decide)

/-- C5 counterexample: a first frame arrives and then the transport yields
nothing more, so the consecutive-frame wait times out — yet
`uds_read_by_id` returns the partial payload `[0xAA, 0xBB]` instead of
failing with `Timeout`, refuting the claim that a timeout while
collecting consecutive frames is reported as a Timeout failure. -/
theorem C5_counterexample :
    (uds_read_by_id 0xD631 0x6F1 0x643 0x43 0xF1
        [some ⟨0x643, [0xF1, 0x10, 0x0A, 0x62, 0xD6, 0x31, 0xAA, 0xBB]⟩]).1 =
      UdsOutcome.ok [0xAA, 0xBB] := by decide

/-- C5 (amended): a timeout on the initial wait does fail the call — the
trigger-finder engine raises its dedicated `Timeout` error, the
table-page engine its generic no-valid-response error.  A timeout during
consecutive-frame collection, however, does not fail: both engines end
reassembly and return the payload collected so far. -/
theorem C5_amended_timeout_semantics :
    (∀ did txId rxId eaReq eaRsp (reads : List (Option Frame)),
      (∀ r ∈ reads, tfSkip ((did >>> 8) &&& 0xFF) (did &&& 0xFF) rxId eaRsp r) →
      (uds_read_by_id did txId rxId eaReq eaRsp reads).1 =
        UdsOutcome.timeout) ∧
    (∀ did txId rxId eaReq eaRsp (f : Frame),
      f.id = rxId → f.data.getD 0 0 = eaRsp →
      ffAccept ((did >>> 8) &&& 0xFF) (did &&& 0xFF) f.data →
      (uds_read_by_id did txId rxId eaReq eaRsp [some f]).1 =
        UdsOutcome.ok (f.data.drop 6)) ∧
    (∀ did txId rxId eaReq eaRsp (reads : List (Option Frame)) (evs : List Ev)
        (rem : List (Option Frame)),
      recvUntil rxId reads = (none, evs, rem) →
      (uds_read_by_identifier did txId rxId eaReq eaRsp reads).1 =
        BmwOutcome.errNoValidResponse) ∧
    (∀ did txId rxId eaReq eaRsp (reads : List (Option Frame))
        (first : List Nat) (evs : List Ev),
      recvUntil rxId reads = (some first, evs, []) →
      first.getD 0 0 = eaRsp →
      first.getD 1 0 &&& 0xF0 = 0x10 →
      first.getD 3 0 = 0x62 →
      first.getD 4 0 = (did >>> 8) &&& 0xFF →
      first.getD 5 0 = did &&& 0xFF →
      (uds_read_by_identifier did txId rxId eaReq eaRsp reads).1 =
        BmwOutcome.ok (first.drop 6)) := by
  refine ⟨?_, ?_, ?_, ?_⟩
  · intro did txId rxId eaReq eaRsp reads h
    have hpre := udsLoop_skip_prefix ((did >>> 8) &&& 0xFF) (did &&& 0xFF)
      txId rxId eaReq eaRsp reads [] h
    rw [List.append_nil] at hpre
    rw [uds_read_by_id_fst, hpre]
    rfl
  · intro did txId rxId eaReq eaRsp f hid hea hff
    have hh := udsLoop_ff_head ((did >>> 8) &&& 0xFF) (did &&& 0xFF) txId rxId
      eaReq eaRsp f [] hid hea hff
    rw [uds_read_by_id_fst, hh]
    rfl
  · intro did txId rxId eaReq eaRsp reads evs rem hrec
    simp only [uds_read_by_identifier, hrec]
  · intro did txId rxId eaReq eaRsp reads first evs hrec hea hpci h62 h3 h4
    rw [bmw_ff_ok did txId rxId eaReq eaRsp reads first evs [] hrec hea hpci
      h62 h3 h4]
    rfl

/-- Closed witness for C5 (amended): an exchange seeing only one skipped
(mismatched-id) read times out; a first frame with nothing after it
returns the partial payload; and likewise for the table-page engine. -/
theorem C5_witness :
    (uds_read_by_id 0xD631 0x6F1 0x643 0x43 0xF1
        [some ⟨0x123, [0xF1, 0x03]⟩]).1 = UdsOutcome.timeout ∧
    (uds_read_by_id 0xD631 0x6F1 0x643 0x43 0xF1
        [some ⟨0x643, [0xF1, 0x10, 0x0A, 0x62, 0xD6, 0x31, 0xAA, 0xBB]⟩]).1 =
      UdsOutcome.ok
        (([0xF1, 0x10, 0x0A, 0x62, 0xD6, 0x31, 0xAA, 0xBB] : List Nat).drop 6) ∧
    (uds_read_by_identifier 0xD631 0x6F1 0x643 0x43 0xF1 []).1 =
      BmwOutcome.errNoValidResponse ∧
    (uds_read_by_identifier 0xD631 0x6F1 0x643 0x43 0xF1
        [some ⟨0x643, [0xF1, 0x10, 0x0A, 0x62, 0xD6, 0x31, 0xAA, 0xBB]⟩]).1 =
      BmwOutcome.ok
        ((padTo8 [0xF1, 0x10, 0x0A, 0x62, 0xD6, 0x31, 0xAA, 0xBB]).drop 6) :=
  ⟨C5_amended_timeout_semantics.1 0xD631 0x6F1 0x643 0x43 0xF1
      [some ⟨0x123, [0xF1, 0x03]⟩]
      (by
        intro r hr
        rcases List.mem_cons.mp hr with h | h
        · subst h
          exact Or.inl (by decide)
        · exact absurd h (List.not_mem_nil r)),
    C5_amended_timeout_semantics.2.1 0xD631 0x6F1 0x643 0x43 0xF1
      ⟨0x643, [0xF1, 0x10, 0x0A, 0x62, 0xD6, 0x31, 0xAA, 0xBB]⟩
      rfl rfl (by decide),
    C5_amended_timeout_semantics.2.2.1 0xD631 0x6F1 0x643 0x43 0xF1 [] [] []
      rfl,
    C5_amended_timeout_semantics.2.2.2 0xD631 0x6F1 0x643 0x43 0xF1
      [some ⟨0x643, [0xF1, 0x10, 0x0A, 0x62, 0xD6, 0x31, 0xAA, 0xBB]⟩]
      (padTo8 [0xF1, 0x10, 0x0A, 0x62, 0xD6, 0x31, 0xAA, 0xBB])
      [Ev.recv (some ⟨0x643, [0xF1, 0x10, 0x0A, 0x62, 0xD6, 0x31, 0xAA, 0xBB]⟩)]
      (by decide) (by decide) (by decide) (by decide) (by decide) (by decide)⟩

theorem inWin_pair (t0 t1 s e : ℚ) (i : Nat) (d0 d1 : List Nat)
    (h0 : ¬ s ≤ t0) (h1 : s ≤ t1) (h2 : t1 ≤ e) :
    inWin [⟨t0, i, d0⟩, ⟨t1, i, d1⟩] s e = [⟨t1, i, d1⟩] := by
  simp [inWin, List.filter, h0, h1, h2]

theorem beforeMap_pair (t0 t1 s : ℚ) (i : Nat) (d0 d1 : List Nat)
    (h0 : t0 < s) (h1 : ¬ t1 < s) :
    beforeMap [⟨t0, i, d0⟩, ⟨t1, i, d1⟩] s i = some d0 := by
  simp [beforeMap, h0, h1]

/-- C6: when the trigger engine fires a rising edge at `tEvent`, then for
an arbitration id whose last data strictly before `tEvent - 0.300 s` was
the single byte 0x00 and whose one in-window frame carries byte 0x01,
the event's bit-hit increments are exactly one increment of `(id, 0, 0)`
(a 0→1 transition against an equal-length before-snapshot), and the
event's id-hit increment is 1; moreover, for any ring and window, every
id seen inside the window has its id-hit counter incremented by exactly
1 for the event, no matter how many of its frames lie in the window
(`seen_ids` is a set). -/
theorem C6_trigger_event_counters :
    (∀ (t0 t1 tEvent : ℚ) (i : Nat),
      t0 < tEvent - PRE_WIN → tEvent - PRE_WIN ≤ t1 → t1 ≤ tEvent + POST_WIN →
      eventBitKeys [⟨t0, i, [0x00]⟩, ⟨t1, i, [0x01]⟩] (tEvent - PRE_WIN)
          (tEvent + POST_WIN) = [(i, 0, 0)] ∧
        idHitsDelta [⟨t0, i, [0x00]⟩, ⟨t1, i, [0x01]⟩] (tEvent - PRE_WIN)
          (tEvent + POST_WIN) i = 1) ∧
    (∀ (ring : List RFrame) (tStart tEnd : ℚ) (i : Nat),
      (∃ f ∈ ring, tStart ≤ f.ts ∧ f.ts ≤ tEnd ∧ f.cid = i) →
      idHitsDelta ring tStart tEnd i = 1) := by
  constructor
  · intro t0 t1 tEvent i h0 h1 h2
    have hs : ¬ (tEvent - PRE_WIN) ≤ t0 := not_le.mpr h0
    have hnl : ¬ t1 < tEvent - PRE_WIN := not_lt.mpr h1
    have hin := inWin_pair t0 t1 (tEvent - PRE_WIN) (tEvent + POST_WIN) i
      [0x00] [0x01] hs h1 h2
    have hbe := beforeMap_pair t0 t1 (tEvent - PRE_WIN) i [0x00] [0x01] h0 hnl
    constructor
    · unfold eventBitKeys
      rw [hin]
      simp only [List.foldl]
      rw [hbe]
      rfl
    · unfold idHitsDelta
      rw [hin]
      simp
  · intro ring tStart tEnd i hex
    rcases hex with ⟨f, hf, hts, hte, hcid⟩
    unfold idHitsDelta
    rw [if_pos]
    exact List.mem_map.mpr
      ⟨f, List.mem_filter.mpr ⟨hf, by simp [hts, hte]⟩, hcid⟩

/-- Closed witness for C6: the scenario at `t0 = 0`, `t1 = 1`,
`tEvent = 1`, id `0x1A0`, and the set-semantics part on a ring holding
two in-window frames with the same id. -/
theorem C6_witness :
    (eventBitKeys [⟨0, 0x1A0, [0x00]⟩, ⟨1, 0x1A0, [0x01]⟩]
        ((1 : ℚ) - PRE_WIN) ((1 : ℚ) + POST_WIN) = [(0x1A0, 0, 0)] ∧
      idHitsDelta [⟨0, 0x1A0, [0x00]⟩, ⟨1, 0x1A0, [0x01]⟩]
        ((1 : ℚ) - PRE_WIN) ((1 : ℚ) + POST_WIN) 0x1A0 = 1) ∧
    idHitsDelta [⟨1, 0x1A0, [0x01]⟩, ⟨1, 0x1A0, [0x02]⟩] (0 : ℚ) (2 : ℚ)
      0x1A0 = 1 :=
  ⟨C6_trigger_event_counters.1 0 1 1 0x1A0
      (by norm_num [PRE_WIN]) (by norm_num [PRE_WIN]) (by norm_num [POST_WIN]),
    C6_trigger_event_counters.2 [⟨1, 0x1A0, [0x01]⟩, ⟨1, 0x1A0, [0x02]⟩] 0 2
      0x1A0
      ⟨⟨1, 0x1A0, [0x01]⟩, List.mem_cons_self _ _, by norm_num, by norm_num,
        rfl⟩⟩

theorem led_pad_eq (payload : List Int) :
    (if payload.length < 20 then
        payload.take 20 ++ List.replicate (20 - payload.length) 0
      else payload.take 20) =
      (payload ++ List.replicate 20 0).take 20 := by
  rw [List.take_append_eq_append_take, List.take_replicate]
  by_cases h : payload.length < 20
  · rw [if_pos h]
    congr 1
    rw [Nat.min_eq_left (by omega)]
  · rw [if_neg h]
    rw [Nat.sub_eq_zero_of_le (by omega)]
    simp

/-- C7: `decode_led` first truncates or zero-pads the payload to exactly
20 entries (without ever raising — it is a total function), then maps the
first 10 through a clamp into [0, 100] and the next 10 through
floor-at-0 times 10; it coincides with the decoder as the spec words it
(`ledDecodeSpec`), both outputs always have 10 entries, the 20-byte
payload `[0]*10 ++ [5]*10` decodes to `([0]*10, [50]*10)`, and a 5-byte
payload decodes exactly as its 20-byte zero-padded extension. -/
theorem C7_decode_led :
    (∀ payload : List Int, decode_led payload = ledDecodeSpec payload) ∧
    (∀ payload : List Int,
      (decode_led payload).1.length = 10 ∧
        (decode_led payload).2.length = 10) ∧
    decode_led (List.replicate 10 0 ++ List.replicate 10 5) =
      (List.replicate 10 0, List.replicate 10 50) ∧
    decode_led [1, 2, 3, 4, 5] =
      decode_led ([1, 2, 3, 4, 5] ++ List.replicate 15 0) := by
  refine ⟨?_, ?_, by decide, by decide⟩
  · intro payload
    simp only [decode_led, ledDecodeSpec]
    rw [led_pad_eq]
  · intro payload
    constructor
    · simp only [decode_led]
      rw [led_pad_eq payload]
      rw [List.length_map, List.length_take, List.length_take,
        List.length_append, List.length_replicate]
      omega
    · simp only [decode_led]
      rw [led_pad_eq payload]
      rw [List.length_map, List.length_take, List.length_drop,
        List.length_take, List.length_append, List.length_replicate]
      omega

/-- The error of claim C8's wording: an `InvalidByteToken` carrying the
original input text. -/
inductive ClaimErr where
  | invalidByteToken (text : String)
deriving DecidableEq

/-- Strip one leading `"0X"` prefix and nothing more. -/
def stripLeadZeroX : List Char → List Char
  | '0' :: 'X' :: rest => rest
  | l => l

/-- The byte normalizer exactly as claim C8 words it: trim and
upper-case, strip an optional LEADING `"0x"` prefix (and nothing more),
map `""`/`"?"`/`"??"` to the wildcard, zero-pad a single hex digit, and
fail with `InvalidByteToken` carrying the original input text whenever
the result is not 2 valid hex digits. -/
def normalizeByteClaimed (val : String) : Except ClaimErr (Option String) :=
  let s := String.mk (stripLeadZeroX ((pyStrip val.data).map Char.toUpper))
  if s = "" ∨ s = "?" ∨ s = "??" then Except.ok none
  else
    let s1 := if s.length = 1 then "0" ++ s else s
    if s1.length = 2 ∧ s1.data.all isHexChar then Except.ok (some s1)
    else Except.error (ClaimErr.invalidByteToken val)

/-- C8 counterexample: `normalize_hex_byte` removes EVERY occurrence of
`"0X"` — on `"F0XF"` it succeeds with `"FF"`, where the claimed
leading-prefix-only behaviour must fail; and its hex-validation error
carries the normalized text (`"GG"`), not the original input
(`" gg "`). -/
theorem C8_counterexample :
    normalize_hex_byte "F0XF" = Except.ok (some "FF") ∧
    normalizeByteClaimed "F0XF" =
      Except.error (ClaimErr.invalidByteToken "F0XF") ∧
    normalize_hex_byte " gg " =
      Except.error (PyError.valueErrorIntLiteral "GG") ∧
    normalizeByteClaimed " gg " =
      Except.error (ClaimErr.invalidByteToken " gg ") ∧
    ("GG" : String) ≠ " gg " := by decide

/-- Claim C8 as amended: `normalize_hex_byte` trims and upper-cases the
input and removes EVERY occurrence of `"0X"` (not only a leading prefix);
maps `""`, `"?"`, `"??"` to the wildcard; zero-pads a single remaining
character; when the result's length is not 2 it fails with the
fixed-message length `ValueError` (which does not carry the input); a
length-2 result is accepted exactly when Python `int(s, 16)` accepts it
(two hex digits, or a sign/whitespace character beside one hex digit),
and otherwise fails with the `int()` error carrying the normalized text
rather than the original input; the input is never mutated (the function
is pure). -/
def normalizeByteAmended (val : String) : Except PyError (Option String) :=
  let s := String.mk (removeZeroX ((pyStrip val.data).map Char.toUpper))
  if s = "" ∨ s = "?" ∨ s = "??" then Except.ok none
  else
    let s1 := if s.length = 1 then "0" ++ s else s
    if s1.length ≠ 2 then Except.error PyError.valueErrorByteLen
    else if pyIntBase16Ok2 s1 then Except.ok (some s1)
    else Except.error (PyError.valueErrorIntLiteral s1)

/-- C8 (amended): the code's normalizer agrees everywhere with the
amended description `normalizeByteAmended`, and behaves as amended on the
characteristic inputs: wildcards, zero-padding, `0x`-stripping, the
fixed-message length failure, and the normalized-text hex failure. -/
theorem C8_amended_normalize_byte :
    (∀ val : String, normalize_hex_byte val = normalizeByteAmended val) ∧
    normalize_hex_byte "" = Except.ok none ∧
    normalize_hex_byte "?" = Except.ok none ∧
    normalize_hex_byte "??" = Except.ok none ∧
    normalize_hex_byte "a" = Except.ok (some "0A") ∧
    normalize_hex_byte "0x5" = Except.ok (some "05") ∧
    normalize_hex_byte " 0XA " = Except.ok (some "0A") ∧
    normalize_hex_byte "ZZZ" = Except.error PyError.valueErrorByteLen ∧
    normalize_hex_byte "G" = Except.error (PyError.valueErrorIntLiteral "0G") :=
  ⟨fun _ => rfl, by decide, by decide, by decide, by decide, by decide,
    by decide, by decide, by decide⟩

theorem tokensGo_ok_spec :
    ∀ (vs : List String) (toks : List (Option String)) (total : Nat)
      (toks' : List (Option String)) (total' : Nat),
      tokensGo vs toks total = Except.ok (toks', total') →
      ∃ ts, toks' = toks ++ ts ∧ ts.length = vs.length ∧
        total' = total * 256 ^ (ts.count none) := by
  intro vs
  induction vs with
  | nil =>
      intro toks total toks' total' h
      simp only [tokensGo] at h
      injection h with h
      injection h with h1 h2
      exact ⟨[], by simp [← h1], by simp, by simp [← h2]⟩
  | cons v vs ih =>
      intro toks total toks' total' h
      simp only [tokensGo] at h
      cases hn : normalize_hex_byte v with
      | error e =>
          rw [hn] at h
          exact Except.noConfusion h
      | ok t =>
          rw [hn] at h
          rcases ih (toks ++ [t]) (if t = none then total * 256 else total)
            toks' total' h with ⟨ts, hts, hlen, htot⟩
          refine ⟨t :: ts, ?_, by simp [hlen], ?_⟩
          · rw [hts, List.append_assoc]
            rfl
          · rw [htot]
            cases t with
            | none =>
                have hb : (none == (none : Option String)) = true := rfl
                simp only [List.count_cons, if_pos rfl, hb,
                  eq_self_iff_true, if_true, pow_succ]
                ring
            | some x =>
                have : (some x = none) = False := by simp
                simp [List.count_cons]

theorem tokensGo_error_spec :
    ∀ (pre : List String) (v : String) (post : List String) (e : PyError)
      (toks : List (Option String)) (total : Nat),
      (∀ u ∈ pre, ∃ t, normalize_hex_byte u = Except.ok t) →
      normalize_hex_byte v = Except.error e →
      tokensGo (pre ++ v :: post) toks total = Except.error e := by
  intro pre
  induction pre with
  | nil =>
      intro v post e toks total _ hv
      simp only [List.nil_append, tokensGo, hv]
  | cons u pre ih =>
      intro v post e toks total hpre hv
      rcases hpre u (List.mem_cons_self u pre) with ⟨t, ht⟩
      simp only [List.cons_append, tokensGo, ht]
      exact ih v post e (toks ++ [t]) _
        (fun w hw => hpre w (List.mem_cons_of_mem _ hw)) hv

/-- C9: `tokens_from_boxes` returns one token per field and
`total_variants = 256^k`, `k` the number of wildcard (None) tokens — so 1
when all fields are fixed, `256^8` when all 8 are empty, `256^k` for
exactly `k` wildcards — and it fails with the very error of the first
invalid field, whatever comes after it (fail-fast, no partial result). -/
theorem C9_tokens_from_boxes :
    (∀ (vs : List String) (toks : List (Option String)) (total : Nat),
      tokens_from_boxes vs = Except.ok (toks, total) →
      toks.length = vs.length ∧ total = 256 ^ (toks.count none)) ∧
    (∀ (pre : List String) (v : String) (post : List String) (e : PyError),
      (∀ u ∈ pre, ∃ t, normalize_hex_byte u = Except.ok t) →
      normalize_hex_byte v = Except.error e →
      tokens_from_boxes (pre ++ v :: post) = Except.error e) ∧
    tokens_from_boxes ["00", "01", "02", "03", "04", "05", "06", "07"] =
      Except.ok ([some "00", some "01", some "02", some "03", some "04",
        some "05", some "06", some "07"], 1) ∧
    tokens_from_boxes ["", "", "", "", "", "", "", ""] =
      Except.ok (List.replicate 8 none, 256 ^ 8) ∧
    tokens_from_boxes ["11", "", "22", "", "33", "?", "AB", "CD"] =
      Except.ok ([some "11", none, some "22", none, some "33", none,
        some "AB", some "CD"], 256 ^ 3) := by
  refine ⟨?_, ?_, by decide, by decide, by decide⟩
  · intro vs toks total h
    rcases tokensGo_ok_spec vs [] 1 toks total h with ⟨ts, hts, hlen, htot⟩
    rw [List.nil_append] at hts
    subst hts
    exact ⟨hlen, by simpa using htot⟩
  · intro pre v post e hpre hv
    exact tokensGo_error_spec pre v post e [] 1 hpre hv

/-- Closed witness for C9: the success characterisation applied to the
all-fixed 8-field input, and fail-fast applied to a field list whose
second field is invalid. -/
theorem C9_witness :
    (([some "00", some "01", some "02", some "03", some "04", some "05",
        some "06", some "07"] : List (Option String)).length =
        (["00", "01", "02", "03", "04", "05", "06", "07"] :
          List String).length ∧
      1 = 256 ^ (([some "00", some "01", some "02", some "03", some "04",
        some "05", some "06", some "07"] : List (Option String)).count
          none)) ∧
    tokens_from_boxes (["11"] ++ "ZZZ" :: ["XX"]) =
      Except.error PyError.valueErrorByteLen :=
  ⟨C9_tokens_from_boxes.1 ["00", "01", "02", "03", "04", "05", "06", "07"]
      [some "00", some "01", some "02", some "03", some "04", some "05",
        some "06", some "07"] 1 (by decide),
    C9_tokens_from_boxes.2.1 ["11"] "ZZZ" ["XX"] PyError.valueErrorByteLen
      (by
        intro u hu
        rcases List.mem_cons.mp hu with h | h
        · subst h
          exact ⟨some "11", by decide⟩
        · exact absurd h (List.not_mem_nil u))
      (by decide)⟩

theorem canBit_all_zero_false (c : CanBitCfg) (h0 : c.value &&& c.mask = 0) :
    ∀ (pre : List (Option Frame)) (f : Frame) (post : List (Option Frame)),
      (∀ g, some g ∈ pre → cbMatch c g → cbMasked c g = 0) →
      cbMatch c f → cbMasked c f = 0 →
      (CanBit.readState c 0 (pre ++ some f :: post)).1 = false := by
  intro pre
  induction pre with
  | nil =>
      intro f post _ hm hz
      simp only [List.nil_append, CanBit.readState, if_pos hm]
      rw [hz, h0]
      simp
  | cons r pre ih =>
      intro f post hpre hm hz
      have hpre' : ∀ g, some g ∈ pre → cbMatch c g → cbMasked c g = 0 :=
        fun g hg => hpre g (List.mem_cons_of_mem _ hg)
      cases r with
      | none =>
          simp only [List.cons_append, CanBit.readState]
          exact ih f post hpre' hm hz
      | some g =>
          by_cases hgm : cbMatch c g
          · have hgz : cbMasked c g = 0 :=
              hpre g (List.mem_cons_self (some g) pre) hgm
            simp only [List.cons_append, CanBit.readState, if_pos hgm]
            rw [hgz, h0]
            simp
          · simp only [List.cons_append, CanBit.readState, if_neg hgm]
            exact ih f post hpre' hm hz

theorem canBit_true_needs_nonzero (c : CanBitCfg) :
    ∀ (frames : List (Option Frame)) (last : Nat),
      (CanBit.readState c last frames).1 = true →
      last ≠ c.value &&& c.mask ∨
        ∃ g, some g ∈ frames ∧ cbMatch c g ∧
          cbMasked c g ≠ c.value &&& c.mask := by
  intro frames
  induction frames with
  | nil =>
      intro last h
      exact absurd h (by simp [CanBit.readState])
  | cons r rest ih =>
      intro last h
      cases r with
      | none =>
          simp only [CanBit.readState] at h
          rcases ih last h with hl | ⟨g, hg, hgm, hgz⟩
          · exact Or.inl hl
          · exact Or.inr ⟨g, List.mem_cons_of_mem _ hg, hgm, hgz⟩
      | some f =>
          by_cases hm : cbMatch c f
          · simp only [CanBit.readState, if_pos hm] at h
            by_cases he : cbMasked c f = c.value &&& c.mask
            · rw [if_pos he] at h
              simp only [decide_eq_true_eq] at h
              exact Or.inl h
            · rw [if_neg he] at h
              rcases ih (cbMasked c f) h with hl | ⟨g, hg, hgm, hgz⟩
              · exact Or.inr ⟨f, List.mem_cons_self (some f) rest, hm, hl⟩
              · exact Or.inr ⟨g, List.mem_cons_of_mem _ hg, hgm, hgz⟩
          · simp only [CanBit.readState, if_neg hm] at h
            rcases ih last h with hl | ⟨g, hg, hgm, hgz⟩
            · exact Or.inl hl
            · exact Or.inr ⟨g, List.mem_cons_of_mem _ hg, hgm, hgz⟩

/-- C10: `CanBit` initialises its last-masked-value state to 0 at
construction and on `reset()`; hence, for every configuration with
`(value & mask) == 0`, if no matching frame with a non-zero masked byte
has been seen, the first frame whose masked byte equals the target yields
`read_state = False` (no rising edge), and a `True` result can only occur
after a matching frame with a non-zero masked value has been observed. -/
theorem C10_canbit_rising_edge :
    (∀ a b m v, (CanBit.make a b m v).last = 0) ∧
    (∀ s : CanBitState, s.reset.last = 0) ∧
    (∀ (c : CanBitCfg) (pre : List (Option Frame)) (f : Frame)
        (post : List (Option Frame)),
      c.value &&& c.mask = 0 →
      (∀ g, some g ∈ pre → cbMatch c g → cbMasked c g = 0) →
      cbMatch c f → cbMasked c f = c.value &&& c.mask →
      (CanBit.readState c 0 (pre ++ some f :: post)).1 = false) ∧
    (∀ (c : CanBitCfg) (frames : List (Option Frame)),
      c.value &&& c.mask = 0 →
      (CanBit.readState c 0 frames).1 = true →
      ∃ g, some g ∈ frames ∧ cbMatch c g ∧ cbMasked c g ≠ 0) := by
  refine ⟨fun a b m v => rfl, fun s => rfl, ?_, ?_⟩
  · intro c pre f post h0 hpre hm hz
    exact canBit_all_zero_false c h0 pre f post hpre hm (by rw [hz, h0])
  · intro c frames h0 htrue
    rcases canBit_true_needs_nonzero c frames 0 htrue with hl | ⟨g, hg, hgm, hgz⟩
    · exact absurd h0.symm hl
    · exact ⟨g, hg, hgm, by rw [← h0]; exact hgz⟩

/-- Closed witness for C10: with `value & mask = 0`, a lone masked-zero
frame reads `False`, and a run that reads `True` (non-zero masked frame
then zero frame) indeed contains a matching non-zero-masked frame. -/
theorem C10_witness :
    (CanBit.readState ⟨0x1A0, 0, 0xFF, 0⟩ 0
        ([] ++ some ⟨0x1A0, [0x00]⟩ :: [])).1 = false ∧
    ∃ g, some g ∈ [some ⟨0x1A0, [0x05]⟩, some ⟨0x1A0, [0x00]⟩] ∧
      cbMatch ⟨0x1A0, 0, 0xFF, 0⟩ g ∧ cbMasked ⟨0x1A0, 0, 0xFF, 0⟩ g ≠ 0 :=
  ⟨C10_canbit_rising_edge.2.2.1 ⟨0x1A0, 0, 0xFF, 0⟩ [] ⟨0x1A0, [0x00]⟩ []
      (by decide) (fun g hg => absurd hg (List.not_mem_nil _)) (by decide)
      (by decide),
    C10_canbit_rising_edge.2.2.2 ⟨0x1A0, 0, 0xFF, 0⟩
      [some ⟨0x1A0, [0x05]⟩, some ⟨0x1A0, [0x00]⟩] (by decide) (by decide)⟩
